import Mathlib

/-!
Verification of the FMEA-for-Financial-Transactions pipeline.

The program builds a transaction graph in a graph database
(`graph_construction.py`), scores each transaction with an FMEA
Risk Priority Number (`fmea_implementation.py`), and aggregates a
summary report (`summary_report.py`).  The Cypher queries embedded in
those files are the algorithmic content; we shallow-embed them here as
pure functions over an explicit graph state.

Modelling conventions:
  - transaction amounts are embedded as rationals (the CSV carries
    decimal literals; the comparisons in the queries are exact
    arithmetic comparisons);
  - timestamps are embedded as integers (seconds).  The pipeline stores
    `timestamp` as a fixed-width ISO-8601 string built from whole
    second components, so the string order used by `ORDER BY
    t.timestamp` coincides with the chronological order of the instants,
    and `duration.inSeconds(datetime(a), datetime(b)).seconds` is the
    integer difference of the two instants in seconds;
  - `Transaction_ID` is assigned as the row index rendered to a string
    (`df.index.astype(str)`); we embed identifiers as the underlying
    natural numbers.  Identifier equality/inequality is all the SIMILAR
    query uses; for the NEXT query's sort, ties on the timestamp are
    left unspecified by the engine and we resolve them by identifier
    (i.e. by row order, which is the insertion order of the nodes).
-/

namespace FMEA

/-- A Transaction node as created by `create_transaction_nodes`.  Only the
properties read by the edge-construction and scoring queries are carried
(`Transaction_ID`, `Transaction_Type`, `Transaction_Amount`, `timestamp`);
the remaining CSV columns (Gender, Age, State, ...) are stored on the node
verbatim and never read by any query, so they are irrelevant to the
pipeline's logic. -/
structure TxNode where
  id : ℕ
  ttype : String
  amount : ℚ
  ts : ℤ
  deriving DecidableEq, Repr

/-- The two relationship labels created by the Graph Builder. -/
inductive EdgeType where
  | NEXT
  | SIMILAR
  deriving DecidableEq, Repr

/-- A directed relationship between two Transaction nodes, identified by the
endpoint identifiers.  `NEXT` relationships carry a `time_diff` property
(seconds); `SIMILAR` relationships carry no property (`none`). -/
structure Edge where
  src : ℕ
  dst : ℕ
  etype : EdgeType
  timeDiff : Option ℤ
  deriving DecidableEq, Repr

/-- The graph database state: the Transaction nodes and the relationships. -/
structure GraphState where
  nodes : List TxNode
  edges : List Edge
  deriving DecidableEq, Repr

/-- The node-creation step (`create_transaction_nodes`) run against a fresh
database: one Transaction node per cleaned record, no relationships yet. -/
def create_transaction_nodes (ts : List TxNode) : GraphState :=
  { nodes := ts, edges := [] }

/-- The sort order used by the NEXT query: ascending timestamp
(`ORDER BY t.timestamp`), ties resolved by identifier (see the module
comment). Boolean form, for `List.mergeSort`. -/
def tsLeB (a b : TxNode) : Bool :=
  decide (a.ts < b.ts) || (decide (a.ts = b.ts) && decide (a.id ≤ b.id))

/-- Propositional form of the NEXT sort order. -/
def TsLe (a b : TxNode) : Prop :=
  a.ts < b.ts ∨ (a.ts = b.ts ∧ a.id ≤ b.id)

/-- The NEXT relationship built from an adjacent pair `(t1, t2)` of the
sorted node list: `CREATE (t1)-[:NEXT {time_diff: ...}]->(t2)` with
`time_diff` the difference of the two timestamps in whole seconds. -/
def mkNext (p : TxNode × TxNode) : Edge :=
  { src := p.1.id, dst := p.2.id, etype := .NEXT, timeDiff := some (p.2.ts - p.1.ts) }

/-- The list of NEXT relationships created by `create_next_relationships`:
sort the nodes by timestamp, then one edge per adjacent pair
(`UNWIND range(0, size(txs)-2)` over the collected sorted list). -/
def nextEdges (nodes : List TxNode) : List Edge :=
  let txs := nodes.mergeSort tsLeB
  (txs.zip txs.tail).map mkNext

/-- `create_next_relationships`: appends the NEXT relationships to the
database (Cypher `CREATE` always creates, it never deduplicates). -/
def create_next_relationships (st : GraphState) : GraphState :=
  { st with edges := st.edges ++ nextEdges st.nodes }

/-- The `WHERE` predicate of the SIMILAR query, for the ordered node pair
`(t1, t2)`: distinct identifiers, equal `Transaction_Type`, amounts within
10% of `t1`'s amount, timestamps within one hour of each other. -/
def SimilarCond (t1 t2 : TxNode) : Prop :=
  t1.id ≠ t2.id ∧
  t1.ttype = t2.ttype ∧
  |t1.amount - t2.amount| < (1 / 10 : ℚ) * t1.amount ∧
  |t2.ts - t1.ts| < 3600

instance (t1 t2 : TxNode) : Decidable (SimilarCond t1 t2) := by
  unfold SimilarCond; infer_instance

/-- The SIMILAR relationship created for an ordered pair `(t1, t2)`:
`CREATE (t1)-[:SIMILAR]->(t2)` (no properties). -/
def mkSimilar (t1 t2 : TxNode) : Edge :=
  { src := t1.id, dst := t2.id, etype := .SIMILAR, timeDiff := none }

/-- The list of SIMILAR relationships created by
`create_similar_relationships`: the Cartesian product
`MATCH (t1:Transaction), (t2:Transaction)` ranges over all ordered pairs,
filtered by the `WHERE` clause. -/
def similarEdges (nodes : List TxNode) : List Edge :=
  ((nodes ×ˢ nodes).filter fun p => decide (SimilarCond p.1 p.2)).map
    fun p => mkSimilar p.1 p.2

/-- `create_similar_relationships`: appends the SIMILAR relationships to the
database (Cypher `CREATE` always creates, it never deduplicates). -/
def create_similar_relationships (st : GraphState) : GraphState :=
  { st with edges := st.edges ++ similarEdges st.nodes }

/-- The Graph Builder's edge-construction steps in the order `main` runs
them: NEXT relationships, then SIMILAR relationships. -/
def buildGraphEdges (st : GraphState) : GraphState :=
  create_similar_relationships (create_next_relationships st)

/-! ## Risk Scorer (`fmea_implementation.py`, `run_fmea`) -/

/-- The `avg(t.Transaction_Amount)` aggregate of the statistics query.  A
Cypher aggregation over zero rows yields `null` for `avg`, so the result is
an `Option`: the Python code receives `record["avg_amt"] = None` on an
empty node set and proceeds with it. -/
def avg_amt (nodes : List TxNode) : Option ℚ :=
  match nodes with
  | [] => none
  | _ => some ((nodes.map TxNode.amount).sum / nodes.length)

/-- The square of the `stDev(t.Transaction_Amount)` aggregate: Cypher
`stDev` is the sample standard deviation, `sqrt (Σ (x − μ)² / (n − 1))`,
and returns `0` when there are fewer than two rows.  We expose the sample
variance under the square root (a rational); the scoring query receives
the standard deviation itself only as an opaque parameter `$std_amt`, so
no claim needs the square root's value on two or more rows. -/
def sampleVariance (nodes : List TxNode) : ℚ :=
  if nodes.length ≤ 1 then 0
  else
    let μ := (nodes.map TxNode.amount).sum / nodes.length
    (nodes.map fun t => (t.amount - μ) ^ 2).sum / (nodes.length - 1 : ℕ)

/-- Cypher three-valued comparison `x > e` where `e` is `null` when the
`$avg_amt` parameter is `null` (`null + anything` is `null`, and a `null`
comparison is not `true`, so the `CASE WHEN` branch is not taken). -/
def nullGt (x : ℚ) (e : Option ℚ) : Bool :=
  match e with
  | none => false
  | some v => decide (x > v)

/-- The severity `CASE` of the FMEA query: 10 if the amount exceeds
`avg_amt + 2·std_amt`, else 7 if it exceeds `avg_amt + std_amt`, else 3
(strict comparisons). -/
def severityOf (amt : ℚ) (avgAmt : Option ℚ) (stdAmt : ℚ) : ℕ :=
  if nullGt amt (avgAmt.map fun a => a + 2 * stdAmt) then 10
  else if nullGt amt (avgAmt.map fun a => a + stdAmt) then 7
  else 3

/-- The occurrence `CASE` of the FMEA query:
`CASE WHEN sim_count + 1 > 10 THEN 10 ELSE sim_count + 1 END`. -/
def occurrenceOf (simCount : ℕ) : ℕ :=
  if simCount + 1 > 10 then 10 else simCount + 1

/-- The failure-mode `CASE` of the FMEA query:
`CASE WHEN RPN >= $threshold THEN "High Risk" ELSE "Normal" END`. -/
def classify (rpn : ℕ) (threshold : ℚ) : String :=
  if (rpn : ℚ) ≥ threshold then "High Risk" else "Normal"

/-- `sim_count` for node `t`: the number of outgoing SIMILAR relationships,
`OPTIONAL MATCH (t)-[r:SIMILAR]->()` followed by `count(r)`. -/
def simCountOf (edges : List Edge) (t : TxNode) : ℕ :=
  (edges.filter fun e => decide (e.etype = .SIMILAR) && decide (e.src = t.id)).length

/-- The risk fields the FMEA query `SET`s on a Transaction node. -/
structure ScoredTx where
  node : TxNode
  severity : ℕ
  occurrence : ℕ
  detection : ℕ
  rpn : ℕ
  failureMode : String
  deriving DecidableEq, Repr

/-- The scoring pass of `run_fmea`: the FMEA query, which receives the
global statistics as parameters `$avg_amt` and `$std_amt` (exactly as the
Python passes them) and, per Transaction node, computes `sim_count`,
severity, occurrence, detection = 5, `RPN = severity * occurrence * 5`,
and the failure mode against `$threshold`. -/
def run_fmea_scoring (st : GraphState) (avgAmt : Option ℚ) (stdAmt : ℚ)
    (threshold : ℚ) : List ScoredTx :=
  st.nodes.map fun t =>
    let simCount := simCountOf st.edges t
    let severity := severityOf t.amount avgAmt stdAmt
    let occurrence := occurrenceOf simCount
    let rpn := severity * occurrence * 5
    { node := t, severity := severity, occurrence := occurrence,
      detection := 5, rpn := rpn, failureMode := classify rpn threshold }

/-! ## Report Aggregator (`summary_report.py`, `get_summary_report`) -/

/-- The record returned by the summary query.  On an empty node set the
aggregation row is still returned: `count` is 0, the `sum` of the `CASE`
indicators is 0, and `avg`/`min`/`max` are `null`. -/
structure SummaryReport where
  total : ℕ
  highRisk : ℕ
  avgRPN : Option ℚ
  minRPN : Option ℕ
  maxRPN : Option ℕ
  deriving DecidableEq, Repr

/-- `get_summary_report`: total count, count of nodes flagged "High Risk"
(as a sum of 1/0 `CASE` indicators), and the average, minimum and maximum
of `t.RPN` over all Transaction nodes. -/
def get_summary_report (scored : List ScoredTx) : SummaryReport :=
  { total := scored.length
    highRisk := (scored.map fun s => if s.failureMode = "High Risk" then 1 else 0).sum
    avgRPN :=
      match scored with
      | [] => none
      | _ => some ((scored.map fun s => (s.rpn : ℚ)).sum / scored.length)
    minRPN := (scored.map ScoredTx.rpn).min?
    maxRPN := (scored.map ScoredTx.rpn).max? }

/-! ## Record normalization (`graph_construction.py`, `load_data`) -/

/-- A raw CSV row as `load_data` sees it after the column drops: the date
and time components that pandas parses out of `Transaction_Date` and
`Transaction_Time`, the amount and type, and the remaining retained
columns (Gender, Age, State, ...), which pass through unchanged and are
never read by the pipeline's queries. -/
structure RawRow where
  year : ℕ
  month : ℕ
  day : ℕ
  hour : ℕ
  minute : ℕ
  second : ℕ
  amount : ℚ
  ttype : String
  passthrough : List String
  deriving DecidableEq, Repr

/-- A cleaned record produced by `load_data`: the numeric date/time
components, the unified timestamp (kept as its six components, which the
pipeline serialises to an ISO string), and the generated `Transaction_ID`
(the row index). -/
structure CleanRecord where
  transactionId : ℕ
  year : ℕ
  month : ℕ
  day : ℕ
  hour : ℕ
  minute : ℕ
  second : ℕ
  amount : ℚ
  ttype : String
  passthrough : List String
  deriving DecidableEq, Repr

/-- Per-row normalization at row index `i`: the columnwise transformations
of `load_data` restricted to one row. -/
def normalizeRow (i : ℕ) (r : RawRow) : CleanRecord :=
  { transactionId := i, year := r.year, month := r.month, day := r.day,
    hour := r.hour, minute := r.minute, second := r.second,
    amount := r.amount, ttype := r.ttype, passthrough := r.passthrough }

/-- Normalization of a row list starting at row index `i`
(`Transaction_ID` is `df.index.astype(str)`, i.e. the position of the row
in the frame). -/
def normalizeFrom (i : ℕ) : List RawRow → List CleanRecord
  | [] => []
  | r :: rs => normalizeRow i r :: normalizeFrom (i + 1) rs

/-- `load_data`: normalize every row, then return only the first 1000 rows
(`return df[:1000]`). -/
def load_data (rows : List RawRow) : List CleanRecord :=
  (normalizeFrom 0 rows).take 1000

/-! ## Concrete example data -/

/-- Example node with amount 100 (the spec's SIMILAR asymmetry example). -/
def exA : TxNode := { id := 0, ttype := "Withdrawal", amount := 100, ts := 0 }

/-- Example node with amount 111, same type, 10 minutes later. -/
def exB : TxNode := { id := 1, ttype := "Withdrawal", amount := 111, ts := 600 }

/-- The two-node example batch. -/
def exBatch : List TxNode := [exA, exB]

/-! ## Helper lemmas -/

/-- The NEXT sort comparator is transitive. -/
lemma tsLeB_trans (a b c : TxNode) (hab : tsLeB a b = true) (hbc : tsLeB b c = true) :
    tsLeB a c = true := by
  simp only [tsLeB, Bool.or_eq_true, Bool.and_eq_true, decide_eq_true_eq] at *
  omega

/-- The NEXT sort comparator is total. -/
lemma tsLeB_total (a b : TxNode) : (tsLeB a b || tsLeB b a) = true := by
  simp only [tsLeB, Bool.or_eq_true, Bool.and_eq_true, decide_eq_true_eq]
  omega

/-- Boolean and propositional forms of the NEXT sort order agree. -/
lemma tsLeB_iff (a b : TxNode) : tsLeB a b = true ↔ TsLe a b := by
  simp [tsLeB, TsLe]

/-- In a chain, every adjacent pair (an element of `l.zip l.tail`) is
related. -/
lemma chain_rel_of_zip_tail {α : Type} {R : α → α → Prop} :
    ∀ {l : List α}, l.Chain' R → ∀ p ∈ l.zip l.tail, R p.1 p.2 := by
  intro l
  induction l with
  | nil => intro _ p hp; simp at hp
  | cons a t ih =>
    intro hc p hp
    cases t with
    | nil => simp at hp
    | cons b r =>
      rw [List.chain'_cons] at hc
      simp only [List.tail_cons, List.zip_cons_cons, List.mem_cons] at hp
      rcases hp with rfl | hp
      · exact hc.1
      · exact ih hc.2 p hp

/-- The sorted node list of the NEXT query. -/
def sortedNodes (nodes : List TxNode) : List TxNode :=
  nodes.mergeSort tsLeB

/-- The sorted node list is a permutation of the nodes. -/
lemma sortedNodes_perm (nodes : List TxNode) : (sortedNodes nodes).Perm nodes :=
  List.mergeSort_perm nodes tsLeB

/-- The sorted node list is sorted for the NEXT order. -/
lemma sortedNodes_pairwise (nodes : List TxNode) :
    (sortedNodes nodes).Pairwise TsLe := by
  have h := @List.sorted_mergeSort TxNode tsLeB tsLeB_trans tsLeB_total nodes
  exact h.imp fun hab => (tsLeB_iff _ _).mp hab

/-- Evaluation of the SIMILAR relationships on the two-node example batch:
only the edge from the 111-amount node to the 100-amount node is created
(11 < 11.1 but not 11 < 10). -/
lemma similarEdges_exBatch : similarEdges exBatch = [mkSimilar exB exA] := by
  have h1 : decide (SimilarCond exA exA) = false := by
    rw [decide_eq_false_iff_not]
    unfold SimilarCond
    norm_num [exA]
  have h2 : decide (SimilarCond exA exB) = false := by
    rw [decide_eq_false_iff_not]
    unfold SimilarCond
    norm_num [exA, exB]
  have h3 : decide (SimilarCond exB exA) = true := by
    rw [decide_eq_true_eq]
    unfold SimilarCond
    norm_num [exA, exB]
  have h4 : decide (SimilarCond exB exB) = false := by
    rw [decide_eq_false_iff_not]
    unfold SimilarCond
    norm_num [exB]
  simp [similarEdges, exBatch, List.product_cons, List.nil_product,
    List.filter_cons, h1, h2, h3, h4]

/-- Evaluation of the NEXT relationships on the two-node example batch. -/
lemma nextEdges_exBatch : nextEdges exBatch = [mkNext (exA, exB)] := by
  have hs : exBatch.mergeSort tsLeB = [exA, exB] := by
    simp [exBatch, List.mergeSort, tsLeB, exA, exB]
  simp [nextEdges, hs]

/-- The edges of the built graph are the old edges followed by the freshly
created NEXT and SIMILAR relationships. -/
lemma buildGraphEdges_edges (st : GraphState) :
    (buildGraphEdges st).edges =
      st.edges ++ (nextEdges st.nodes ++ similarEdges st.nodes) := by
  simp [buildGraphEdges, create_next_relationships, create_similar_relationships]

/-- Building edges does not change the node set. -/
lemma buildGraphEdges_nodes (st : GraphState) :
    (buildGraphEdges st).nodes = st.nodes := rfl

/-! ## Claims -/

/-- C1: for distinct-identifier node batches, a directed SIMILAR edge
`a → b` is created iff `type(a) = type(b)`,
`|amount(a) − amount(b)| < 0.1 · amount(a)` (the tolerance is measured
against the source node `a`'s amount, so the relation is asymmetric) and
`|timestamp(a) − timestamp(b)| < 3600` seconds; in particular, for nodes
of equal type 10 minutes apart with amounts 100 and 111, the edge from
the 100-amount node to the 111-amount node does not exist while the
reverse edge does. -/
theorem c1_similar_edge_iff (nodes : List TxNode) (a b : TxNode)
    (hnd : (nodes.map TxNode.id).Nodup) (ha : a ∈ nodes) (hb : b ∈ nodes) :
    (mkSimilar a b ∈ similarEdges nodes ↔ SimilarCond a b) ∧
    (mkSimilar exA exB ∉ similarEdges exBatch ∧
      mkSimilar exB exA ∈ similarEdges exBatch) := by
  refine ⟨⟨?_, ?_⟩, ?_, ?_⟩
  · intro h
    simp only [similarEdges, List.mem_map] at h
    obtain ⟨⟨pa, pb⟩, hp, hpe⟩ := h
    rw [List.mem_filter, List.mem_product, decide_eq_true_eq] at hp
    obtain ⟨⟨hp1, hp2⟩, hpc⟩ := hp
    have hid1 : pa.id = a.id := congrArg Edge.src hpe
    have hid2 : pb.id = b.id := congrArg Edge.dst hpe
    have e1 : pa = a := List.inj_on_of_nodup_map hnd hp1 ha hid1
    have e2 : pb = b := List.inj_on_of_nodup_map hnd hp2 hb hid2
    rwa [e1, e2] at hpc
  · intro h
    simp only [similarEdges, List.mem_map]
    refine ⟨(a, b), ?_, rfl⟩
    simp only [List.mem_filter, List.mem_product, decide_eq_true_eq]
    exact ⟨⟨ha, hb⟩, h⟩
  · rw [similarEdges_exBatch]
    intro h
    simp only [List.mem_singleton] at h
    have : (0 : ℕ) = 1 := congrArg Edge.src h
    simp at this
  · rw [similarEdges_exBatch]
    simp

/-- C1 witness: the general theorem applied to the concrete two-node batch
with amounts 111 and 100, in the direction that qualifies. -/
theorem c1_similar_edge_iff_witness :
    (exBatch.map TxNode.id).Nodup ∧ exB ∈ exBatch ∧ exA ∈ exBatch ∧
    (mkSimilar exB exA ∈ similarEdges exBatch ↔ SimilarCond exB exA) := by
  have hnd : (exBatch.map TxNode.id).Nodup := by simp [exBatch, exA, exB]
  have hb : exB ∈ exBatch := by simp [exBatch]
  have ha : exA ∈ exBatch := by simp [exBatch]
  exact ⟨hnd, hb, ha, (c1_similar_edge_iff exBatch exB exA hnd hb ha).1⟩

/-- C2: for a batch of `n ≥ 1` nodes, the NEXT construction produces
exactly `n − 1` edges: the consecutive pairs of a single ordering of the
nodes (a permutation, so the path visits every node exactly once) that is
sorted by ascending timestamp with ties broken by identifier; each edge
carries `time_diff` equal to the target's timestamp minus the source's
timestamp in whole seconds, and every `time_diff` is ≥ 0. -/
theorem c2_next_chain (nodes : List TxNode) (h : nodes ≠ []) :
    (sortedNodes nodes).Perm nodes ∧
    (sortedNodes nodes).Pairwise TsLe ∧
    nextEdges nodes = ((sortedNodes nodes).zip (sortedNodes nodes).tail).map mkNext ∧
    (nextEdges nodes).length = nodes.length - 1 ∧
    ∀ e ∈ nextEdges nodes, ∃ d : ℤ, e.timeDiff = some d ∧ 0 ≤ d := by
  refine ⟨sortedNodes_perm nodes, sortedNodes_pairwise nodes, rfl, ?_, ?_⟩
  · have hlen : (sortedNodes nodes).length = nodes.length :=
      (sortedNodes_perm nodes).length_eq
    simp only [nextEdges, List.length_map, List.length_zip, List.length_tail]
    rw [show nodes.mergeSort tsLeB = sortedNodes nodes from rfl, hlen]
    omega
  · intro e he
    simp only [nextEdges, List.mem_map] at he
    obtain ⟨p, hp, rfl⟩ := he
    refine ⟨p.2.ts - p.1.ts, rfl, ?_⟩
    have hch : (nodes.mergeSort tsLeB).Chain' TsLe :=
      (sortedNodes_pairwise nodes).chain'
    have hrel := chain_rel_of_zip_tail hch p hp
    rcases hrel with h1 | ⟨h1, _⟩ <;> omega

/-- C2 witness: the chain theorem applied to the concrete two-node batch. -/
theorem c2_next_chain_witness :
    exBatch ≠ [] ∧ (nextEdges exBatch).length = exBatch.length - 1 := by
  have h : exBatch ≠ [] := by simp [exBatch]
  exact ⟨h, (c2_next_chain exBatch h).2.2.2.1⟩

/-- Example node for the occurrence-cap check. -/
def c4Node : TxNode := { id := 0, ttype := "Transfer", amount := 50, ts := 0 }

/-- Twelve outgoing SIMILAR relationships from `c4Node`. -/
def c4Edges : List Edge :=
  (List.range 12).map fun i =>
    { src := 0, dst := i + 1, etype := .SIMILAR, timeDiff := none }

/-- A graph whose single node has twelve outgoing SIMILAR relationships. -/
def c4State : GraphState := { nodes := [c4Node], edges := c4Edges }

/-- The occurrence `CASE` computes `min(sim_count + 1, 10)`. -/
lemma occurrenceOf_eq_min (n : ℕ) : occurrenceOf n = min (n + 1) 10 := by
  unfold occurrenceOf
  split <;> omega

/-- `c4Node` has SIMILAR out-degree 12 in `c4State`. -/
lemma simCountOf_c4State : simCountOf c4State.edges c4Node = 12 := by decide

/-- The scored record the FMEA query produces for `c4Node` in `c4State`
with null mean, zero standard deviation and the default threshold 30. -/
def c4Scored : ScoredTx :=
  { node := c4Node, severity := 3, occurrence := 10, detection := 5,
    rpn := 150, failureMode := "High Risk" }

/-- Evaluation of the scoring pass on `c4State` with null mean, zero
standard deviation and the default threshold 30. -/
lemma run_fmea_scoring_c4State :
    run_fmea_scoring c4State none 0 30 = [c4Scored] := by
  have hs := simCountOf_c4State
  simp only [run_fmea_scoring, c4State, List.map_cons, List.map_nil, c4Scored] at *
  rw [hs]
  norm_num [severityOf, nullGt, occurrenceOf, classify]

/-- The failure-mode `CASE` flags "High Risk" exactly when the RPN reaches
the threshold, and "Normal" exactly when it does not. -/
lemma classify_eq_iff (rpn : ℕ) (thr : ℚ) :
    (classify rpn thr = "High Risk" ↔ thr ≤ (rpn : ℚ)) ∧
    (classify rpn thr = "Normal" ↔ (rpn : ℚ) < thr) := by
  rcases le_or_lt thr (rpn : ℚ) with h | h
  · rw [classify, if_pos h]
    exact ⟨⟨fun _ => h, fun _ => rfl⟩,
      ⟨fun he => absurd he (by decide), fun hlt => absurd h (not_le.mpr hlt)⟩⟩
  · rw [classify, if_neg (not_le.mpr h)]
    exact ⟨⟨fun he => absurd he (by decide), fun hle => absurd hle (not_le.mpr h)⟩,
      ⟨fun _ => h, fun _ => rfl⟩⟩

/-- C3: with global mean `m` and standard deviation `sd`, every scored node
gets severity 10 if its amount strictly exceeds `m + 2·sd`, else 7 if it
strictly exceeds `m + sd`, else 3; at the boundary the comparison is
strict, so with mean 100 and stddev 10 an amount of exactly 120 gets
severity 7, not 10. -/
theorem c3_severity_tiers (st : GraphState) (m sd thr : ℚ) :
    (∀ s ∈ run_fmea_scoring st (some m) sd thr,
        s.severity =
          if m + 2 * sd < s.node.amount then 10
          else if m + sd < s.node.amount then 7 else 3) ∧
    severityOf 120 (some 100) 10 = 7 := by
  constructor
  · intro s hs
    simp only [run_fmea_scoring, List.mem_map] at hs
    obtain ⟨t, ht, rfl⟩ := hs
    show severityOf t.amount (some m) sd = _
    simp only [severityOf, nullGt, Option.map_some', gt_iff_lt]
    by_cases h1 : m + 2 * sd < t.amount
    · simp [h1]
    · by_cases h2 : m + sd < t.amount <;> simp [h1, h2]
  · norm_num [severityOf, nullGt]

/-- C3 witness: the tier formula applied to the scored node of `c4State`
(amount 50, null mean treated through a concrete mean 0, stddev 0). -/
theorem c3_severity_tiers_witness :
    ∀ s ∈ run_fmea_scoring c4State (some 0) 0 30,
      s.severity =
        if (0 : ℚ) + 2 * 0 < s.node.amount then 10
        else if (0 : ℚ) + 0 < s.node.amount then 7 else 3 :=
  (c3_severity_tiers c4State 0 0 30).1

/-- C4: every scored node's occurrence is `min(sim_count + 1, 10)` for its
SIMILAR out-degree `sim_count`, hence never exceeds 10; in particular the
node of `c4State`, which has 12 outgoing SIMILAR edges, gets occurrence
exactly 10. -/
theorem c4_occurrence_cap (st : GraphState) (avgAmt : Option ℚ) (sd thr : ℚ) :
    (∀ s ∈ run_fmea_scoring st avgAmt sd thr,
        s.occurrence = min (simCountOf st.edges s.node + 1) 10 ∧
        s.occurrence ≤ 10) ∧
    (run_fmea_scoring c4State none 0 30).map ScoredTx.occurrence = [10] := by
  constructor
  · intro s hs
    simp only [run_fmea_scoring, List.mem_map] at hs
    obtain ⟨t, ht, rfl⟩ := hs
    refine ⟨occurrenceOf_eq_min _, ?_⟩
    show occurrenceOf (simCountOf st.edges t) ≤ 10
    rw [occurrenceOf_eq_min]
    omega
  · rw [run_fmea_scoring_c4State]
    rfl

/-- C4 witness: the occurrence formula applied to the scored node of
`c4State`, whose SIMILAR out-degree is 12. -/
theorem c4_occurrence_cap_witness :
    c4Scored ∈ run_fmea_scoring c4State none 0 30 ∧
    c4Scored.occurrence = min (simCountOf c4State.edges c4Scored.node + 1) 10 := by
  have hm : c4Scored ∈ run_fmea_scoring c4State none 0 30 := by
    rw [run_fmea_scoring_c4State]; simp
  exact ⟨hm, ((c4_occurrence_cap c4State none 0 30).1 _ hm).1⟩

/-- C5: a scored node is flagged "High Risk" iff its RPN is at least the
caller-supplied threshold, and "Normal" iff it is strictly below; the
boundary is inclusive: with threshold 30, an RPN of 30 is "High Risk" and
an RPN of 29 would be "Normal". -/
theorem c5_threshold_classification (st : GraphState) (avgAmt : Option ℚ)
    (sd thr : ℚ) :
    (∀ s ∈ run_fmea_scoring st avgAmt sd thr,
        (s.failureMode = "High Risk" ↔ thr ≤ (s.rpn : ℚ)) ∧
        (s.failureMode = "Normal" ↔ (s.rpn : ℚ) < thr)) ∧
    classify 30 30 = "High Risk" ∧ classify 29 30 = "Normal" := by
  refine ⟨?_, ?_, ?_⟩
  · intro s hs
    simp only [run_fmea_scoring, List.mem_map] at hs
    obtain ⟨t, ht, rfl⟩ := hs
    exact classify_eq_iff _ thr
  · rw [(classify_eq_iff 30 30).1]
    norm_num
  · rw [(classify_eq_iff 29 30).2]
    norm_num

/-- C5 witness: the classification rule applied to the scored node of
`c4State` (RPN 150, threshold 30). -/
theorem c5_threshold_classification_witness :
    c4Scored ∈ run_fmea_scoring c4State none 0 30 ∧
    ((30 : ℚ) ≤ (c4Scored.rpn : ℚ)) := by
  have hm : c4Scored ∈ run_fmea_scoring c4State none 0 30 := by
    rw [run_fmea_scoring_c4State]; simp
  exact ⟨hm, (((c5_threshold_classification c4State none 0 30).1 _ hm).1).mp rfl⟩

/-- The severity `CASE` only ever produces 3, 7 or 10. -/
lemma severityOf_cases (amt : ℚ) (avgAmt : Option ℚ) (sd : ℚ) :
    severityOf amt avgAmt sd = 3 ∨ severityOf amt avgAmt sd = 7 ∨
      severityOf amt avgAmt sd = 10 := by
  unfold severityOf
  split
  · exact Or.inr (Or.inr rfl)
  · split
    · exact Or.inr (Or.inl rfl)
    · exact Or.inl rfl

/-- C8: every node scored by the FMEA query satisfies the documented field
invariants: severity ∈ {3, 7, 10}, occurrence an integer in 1..10,
detection = 5, RPN = severity · occurrence · detection with
15 ≤ RPN ≤ 500, and the failure mode one of the two values
"High Risk" and "Normal". -/
theorem c8_scored_invariants (st : GraphState) (avgAmt : Option ℚ) (sd thr : ℚ) :
    ∀ s ∈ run_fmea_scoring st avgAmt sd thr,
      (s.severity = 3 ∨ s.severity = 7 ∨ s.severity = 10) ∧
      1 ≤ s.occurrence ∧ s.occurrence ≤ 10 ∧
      s.detection = 5 ∧
      s.rpn = s.severity * s.occurrence * s.detection ∧
      15 ≤ s.rpn ∧ s.rpn ≤ 500 ∧
      (s.failureMode = "High Risk" ∨ s.failureMode = "Normal") := by
  intro s hs
  simp only [run_fmea_scoring, List.mem_map] at hs
  obtain ⟨t, ht, rfl⟩ := hs
  have hsev := severityOf_cases t.amount avgAmt sd
  have hsev3 : 3 ≤ severityOf t.amount avgAmt sd := by
    rcases hsev with h | h | h <;> omega
  have hsev10 : severityOf t.amount avgAmt sd ≤ 10 := by
    rcases hsev with h | h | h <;> omega
  have hocc1 : 1 ≤ occurrenceOf (simCountOf st.edges t) := by
    rw [occurrenceOf_eq_min]; omega
  have hocc10 : occurrenceOf (simCountOf st.edges t) ≤ 10 := by
    rw [occurrenceOf_eq_min]; omega
  refine ⟨hsev, hocc1, hocc10, rfl, rfl, ?_, ?_, ?_⟩
  · calc (15 : ℕ) = 3 * 1 * 5 := by norm_num
    _ ≤ severityOf t.amount avgAmt sd * occurrenceOf (simCountOf st.edges t) * 5 :=
      Nat.mul_le_mul_right 5 (Nat.mul_le_mul hsev3 hocc1)
  · calc severityOf t.amount avgAmt sd * occurrenceOf (simCountOf st.edges t) * 5
      ≤ 10 * 10 * 5 := Nat.mul_le_mul_right 5 (Nat.mul_le_mul hsev10 hocc10)
    _ = 500 := by norm_num
  · show classify _ thr = "High Risk" ∨ classify _ thr = "Normal"
    unfold classify
    split
    · exact Or.inl rfl
    · exact Or.inr rfl

/-- C8 witness: the invariants checked on the scored node of `c4State`. -/
theorem c8_scored_invariants_witness :
    c4Scored ∈ run_fmea_scoring c4State none 0 30 ∧
    c4Scored.detection = 5 ∧
    c4Scored.rpn = c4Scored.severity * c4Scored.occurrence * c4Scored.detection := by
  have hm : c4Scored ∈ run_fmea_scoring c4State none 0 30 := by
    rw [run_fmea_scoring_c4State]; simp
  have h := c8_scored_invariants c4State none 0 30 _ hm
  exact ⟨hm, h.2.2.2.1, h.2.2.2.2.1⟩

/-- C6 counterexample: on an empty node set the statistics query does not
fail — it returns a row whose average is `null` (and a zero standard
deviation), and the scoring query still runs, matching zero nodes and
updating nothing.  No "no data" failure exists anywhere on this path. -/
theorem c6_empty_stats_counterexample :
    avg_amt [] = none ∧ sampleVariance [] = 0 ∧
    run_fmea_scoring (create_transaction_nodes []) (avg_amt []) 0 30 = [] := by
  refine ⟨rfl, ?_, rfl⟩
  simp [sampleVariance]

/-- C6 amended: when `run_fmea` is run on an empty node set, the global
statistics come back as a `null` average and a zero standard deviation,
no explicit "no data" failure is raised, and the scoring pass still runs
(over zero nodes, producing no scored node), for any such parameters. -/
theorem c6_empty_stats_amended (sd thr : ℚ) :
    avg_amt [] = none ∧ sampleVariance [] = 0 ∧
    run_fmea_scoring (create_transaction_nodes []) none sd thr = [] := by
  refine ⟨rfl, ?_, rfl⟩
  simp [sampleVariance]

/-- The (source, target, type) key identifying an edge slot between an
ordered node pair. -/
def edgeKey (e : Edge) : ℕ × ℕ × EdgeType :=
  (e.src, e.dst, e.etype)

/-- The keys of the consecutive pairs of a list with no duplicate
identifiers are pairwise distinct (each source identifier appears in at
most one pair). -/
lemma zip_tail_keys_nodup :
    ∀ (l : List TxNode), (l.map TxNode.id).Nodup →
      ((l.zip l.tail).map fun p => (p.1.id, p.2.id, EdgeType.NEXT)).Nodup := by
  intro l
  induction l with
  | nil => intro _; simp
  | cons a t ih =>
    intro hnd
    rw [List.map_cons, List.nodup_cons] at hnd
    cases t with
    | nil => simp
    | cons b r =>
      simp only [List.tail_cons, List.zip_cons_cons, List.map_cons, List.nodup_cons]
      refine ⟨?_, ih hnd.2⟩
      intro hmem
      simp only [List.mem_map] at hmem
      obtain ⟨⟨x, y⟩, hxy, heq⟩ := hmem
      have hxid : x.id = a.id := congrArg (fun q => q.1) heq
      have hx : x ∈ b :: r := (List.of_mem_zip hxy).1
      exact hnd.1 (hxid ▸ List.mem_map_of_mem TxNode.id hx)

/-- Within one run, NEXT relationships occupy pairwise-distinct
(source, target, type) keys when identifiers are unique. -/
lemma nextEdges_keys_nodup (nodes : List TxNode)
    (hnd : (nodes.map TxNode.id).Nodup) :
    ((nextEdges nodes).map edgeKey).Nodup := by
  have hsnd : ((sortedNodes nodes).map TxNode.id).Nodup :=
    (((sortedNodes_perm nodes).map TxNode.id).nodup_iff).mpr hnd
  have hkey : (nextEdges nodes).map edgeKey =
      ((sortedNodes nodes).zip (sortedNodes nodes).tail).map
        fun p => (p.1.id, p.2.id, EdgeType.NEXT) := by
    show (((sortedNodes nodes).zip (sortedNodes nodes).tail).map mkNext).map edgeKey = _
    rw [List.map_map]
    rfl
  rw [hkey]
  exact zip_tail_keys_nodup _ hsnd

/-- Within one run, SIMILAR relationships occupy pairwise-distinct
(source, target, type) keys when identifiers are unique. -/
lemma similarEdges_keys_nodup (nodes : List TxNode)
    (hnd : (nodes.map TxNode.id).Nodup) :
    ((similarEdges nodes).map edgeKey).Nodup := by
  have hn : nodes.Nodup := List.Nodup.of_map _ hnd
  have hfil : ((nodes ×ˢ nodes).filter fun p => decide (SimilarCond p.1 p.2)).Nodup :=
    (hn.product hn).filter _
  have hkey : (similarEdges nodes).map edgeKey =
      ((nodes ×ˢ nodes).filter fun p => decide (SimilarCond p.1 p.2)).map
        fun p => (p.1.id, p.2.id, EdgeType.SIMILAR) := by
    show (((nodes ×ˢ nodes).filter _).map fun p => mkSimilar p.1 p.2).map edgeKey = _
    rw [List.map_map]
    rfl
  rw [hkey]
  apply List.Nodup.map_on _ hfil
  rintro ⟨x1, x2⟩ hx ⟨y1, y2⟩ hy hxy
  have hx' := (List.mem_filter.mp hx).1
  have hy' := (List.mem_filter.mp hy).1
  rw [List.mem_product] at hx' hy'
  have h1 : x1.id = y1.id := congrArg (fun q => q.1) hxy
  have h2 : x2.id = y2.id := congrArg (fun q => q.2.1) hxy
  have e1 : x1 = y1 := List.inj_on_of_nodup_map hnd hx'.1 hy'.1 h1
  have e2 : x2 = y2 := List.inj_on_of_nodup_map hnd hx'.2 hy'.2 h2
  rw [e1, e2]

/-- Every relationship created by the NEXT query is typed NEXT. -/
lemma nextEdges_etype (nodes : List TxNode) :
    ∀ e ∈ nextEdges nodes, e.etype = .NEXT := by
  intro e he
  simp only [nextEdges, List.mem_map] at he
  obtain ⟨p, _, rfl⟩ := he
  rfl

/-- Every relationship created by the SIMILAR query is typed SIMILAR. -/
lemma similarEdges_etype (nodes : List TxNode) :
    ∀ e ∈ similarEdges nodes, e.etype = .SIMILAR := by
  intro e he
  simp only [similarEdges, List.mem_map] at he
  obtain ⟨p, _, rfl⟩ := he
  rfl

/-- C7 counterexample: running the Graph Builder's edge-construction steps
twice on the two-node example batch does not yield the same edge set as
running them once — the `CREATE` clauses append a second copy of every
edge. -/
theorem c7_counterexample :
    (buildGraphEdges (buildGraphEdges (create_transaction_nodes exBatch))).edges ≠
      (buildGraphEdges (create_transaction_nodes exBatch)).edges := by
  have h1 : (buildGraphEdges (create_transaction_nodes exBatch)).edges =
      [mkNext (exA, exB), mkSimilar exB exA] := by
    rw [buildGraphEdges_edges]
    simp [create_transaction_nodes, nextEdges_exBatch, similarEdges_exBatch]
  have h2 : (buildGraphEdges (buildGraphEdges (create_transaction_nodes exBatch))).edges =
      [mkNext (exA, exB), mkSimilar exB exA, mkNext (exA, exB), mkSimilar exB exA] := by
    rw [buildGraphEdges_edges, buildGraphEdges_nodes, h1]
    simp [create_transaction_nodes, nextEdges_exBatch, similarEdges_exBatch]
  rw [h1, h2]
  intro h
  have := congrArg List.length h
  simp at this

/-- C7 amended: a single run of the edge-construction steps on a fresh
graph with unique identifiers creates at most one edge of each type per
ordered node pair (the (source, target, type) keys of the created edges
are pairwise distinct); but the steps are not idempotent — running them a
second time appends a duplicate copy of the entire edge set (Cypher
`CREATE`, not `MERGE`). -/
theorem c7_single_run_unique (st : GraphState)
    (hnd : (st.nodes.map TxNode.id).Nodup) (h0 : st.edges = []) :
    ((buildGraphEdges st).edges.map edgeKey).Nodup ∧
    (buildGraphEdges (buildGraphEdges st)).edges =
      (buildGraphEdges st).edges ++ (buildGraphEdges st).edges := by
  constructor
  · rw [buildGraphEdges_edges, h0, List.nil_append, List.map_append,
      List.nodup_append]
    refine ⟨nextEdges_keys_nodup st.nodes hnd,
      similarEdges_keys_nodup st.nodes hnd, ?_⟩
    intro k hk1 hk2
    simp only [List.mem_map] at hk1 hk2
    obtain ⟨e1, he1, rfl⟩ := hk1
    obtain ⟨e2, he2, hkeq⟩ := hk2
    have ht1 : e1.etype = .NEXT := nextEdges_etype st.nodes e1 he1
    have ht2 : e2.etype = .SIMILAR := similarEdges_etype st.nodes e2 he2
    have : e2.etype = e1.etype := congrArg (fun q => q.2.2) hkeq
    rw [ht1, ht2] at this
    exact EdgeType.noConfusion this
  · rw [buildGraphEdges_edges (buildGraphEdges st), buildGraphEdges_nodes,
      buildGraphEdges_edges, h0]
    simp

/-- C7 witness: the single-run uniqueness theorem applied to the concrete
two-node batch. -/
theorem c7_single_run_unique_witness :
    ((create_transaction_nodes exBatch).nodes.map TxNode.id).Nodup ∧
    (create_transaction_nodes exBatch).edges = [] ∧
    ((buildGraphEdges (create_transaction_nodes exBatch)).edges.map edgeKey).Nodup := by
  have hnd : ((create_transaction_nodes exBatch).nodes.map TxNode.id).Nodup := by
    simp [create_transaction_nodes, exBatch, exA, exB]
  have h0 : (create_transaction_nodes exBatch).edges = [] := rfl
  exact ⟨hnd, h0, (c7_single_run_unique _ hnd h0).1⟩

/-- The sum of the 1/0 `CASE` indicators is the number of "High Risk"
nodes. -/
lemma sum_highRisk_indicator (l : List ScoredTx) :
    (l.map fun s => if s.failureMode = "High Risk" then 1 else 0).sum =
      (l.filter fun s => decide (s.failureMode = "High Risk")).length := by
  induction l with
  | nil => rfl
  | cons a t ih =>
    by_cases h : a.failureMode = "High Risk" <;>
      simp [List.filter_cons, h, ih, Nat.add_comm]

/-- C9: on a non-empty scored node set, the summary report's total is the
node count, its high-risk count is the number of nodes whose failure mode
is "High Risk", and minRPN ≤ avgRPN ≤ maxRPN. -/
theorem c9_summary_consistency (scored : List ScoredTx) (h : scored ≠ []) :
    (get_summary_report scored).total = scored.length ∧
    (get_summary_report scored).highRisk =
      (scored.filter fun s => decide (s.failureMode = "High Risk")).length ∧
    ∃ mn mx : ℕ, ∃ av : ℚ,
      (get_summary_report scored).minRPN = some mn ∧
      (get_summary_report scored).maxRPN = some mx ∧
      (get_summary_report scored).avgRPN = some av ∧
      (mn : ℚ) ≤ av ∧ av ≤ (mx : ℚ) := by
  obtain ⟨s0, rest, rfl⟩ := List.exists_cons_of_ne_nil h
  refine ⟨rfl, sum_highRisk_indicator _, ?_⟩
  set l := s0 :: rest with hl
  have hmin : ∃ mn, (l.map ScoredTx.rpn).min? = some mn := by
    cases hmn : (l.map ScoredTx.rpn).min? with
    | none => simp [List.min?_eq_none_iff, hl] at hmn
    | some mn => exact ⟨mn, rfl⟩
  have hmax : ∃ mx, (l.map ScoredTx.rpn).max? = some mx := by
    cases hmx : (l.map ScoredTx.rpn).max? with
    | none => simp [List.max?_eq_none_iff, hl] at hmx
    | some mx => exact ⟨mx, rfl⟩
  obtain ⟨mn, hmn⟩ := hmin
  obtain ⟨mx, hmx⟩ := hmax
  have hmn' := List.min?_eq_some_iff'.mp hmn
  have hmx' := List.max?_eq_some_iff'.mp hmx
  have hlen : (0 : ℚ) < l.length := by
    rw [hl]
    exact_mod_cast Nat.succ_pos rest.length
  refine ⟨mn, mx, (l.map fun s => (s.rpn : ℚ)).sum / l.length, hmn, hmx, rfl, ?_, ?_⟩
  · rw [le_div_iff₀ hlen]
    have hb : ∀ x ∈ l.map fun s => (s.rpn : ℚ), (mn : ℚ) ≤ x := by
      intro x hx
      simp only [List.mem_map] at hx
      obtain ⟨s, hs, rfl⟩ := hx
      exact_mod_cast hmn'.2 s.rpn (List.mem_map_of_mem ScoredTx.rpn hs)
    have := List.card_nsmul_le_sum (l.map fun s => (s.rpn : ℚ)) (mn : ℚ) hb
    rw [List.length_map, nsmul_eq_mul] at this
    calc (mn : ℚ) * l.length = l.length * mn := mul_comm _ _
    _ ≤ (l.map fun s => (s.rpn : ℚ)).sum := this
  · rw [div_le_iff₀ hlen]
    have hb : ∀ x ∈ l.map fun s => (s.rpn : ℚ), x ≤ (mx : ℚ) := by
      intro x hx
      simp only [List.mem_map] at hx
      obtain ⟨s, hs, rfl⟩ := hx
      exact_mod_cast hmx'.2 s.rpn (List.mem_map_of_mem ScoredTx.rpn hs)
    have := List.sum_le_card_nsmul (l.map fun s => (s.rpn : ℚ)) (mx : ℚ) hb
    rw [List.length_map, nsmul_eq_mul] at this
    calc (l.map fun s => (s.rpn : ℚ)).sum ≤ l.length * mx := this
    _ = (mx : ℚ) * l.length := mul_comm _ _

/-- C9 witness: the aggregate consistency applied to a concrete singleton
scored set. -/
theorem c9_summary_consistency_witness :
    ([c4Scored] : List ScoredTx) ≠ [] ∧
    (get_summary_report [c4Scored]).total = [c4Scored].length := by
  have h : ([c4Scored] : List ScoredTx) ≠ [] := by simp
  exact ⟨h, (c9_summary_consistency [c4Scored] h).1⟩

/-- Truncation commutes with index-assigning normalization. -/
lemma normalizeFrom_take (i n : ℕ) (rows : List RawRow) :
    (normalizeFrom i rows).take n = normalizeFrom i (rows.take n) := by
  induction rows generalizing i n with
  | nil => simp [normalizeFrom]
  | cons r rs ih =>
    cases n with
    | zero => simp [normalizeFrom]
    | succ m => simp [normalizeFrom, ih]

/-- C10: `load_data` returns at most the first 1000 normalized records —
its output has length at most 1000, equals the normalization of the first
1000 raw rows, and is unchanged if the input is first cut to its first
1000 rows (rows past the first 1000 never reach the Graph Builder). -/
theorem c10_load_data_truncation (rows : List RawRow) :
    (load_data rows).length ≤ 1000 ∧
    load_data rows = normalizeFrom 0 (rows.take 1000) ∧
    load_data rows = load_data (rows.take 1000) := by
  refine ⟨?_, ?_, ?_⟩
  · unfold load_data
    have := List.length_take 1000 (normalizeFrom 0 rows)
    omega
  · exact normalizeFrom_take 0 1000 rows
  · unfold load_data
    rw [normalizeFrom_take, normalizeFrom_take, List.take_take]
    norm_num

end FMEA
